import Mathlib

/-!
# Verification of the seance HPGL/PCL print-preparation pipeline

A shallow embedding of the core of the `seance` repository (an SVG → HPGL/PCL
driver for a GCC Spirit-class laser cutter), together with theorems settling
the specification claims.

Modelling conventions:
* Rust `f32` millimetre values are modelled by exact rational arithmetic (`ℚ`);
  `f32::round` (ties away from zero) is `roundHalfAway`, and the saturating
  float-to-`i16` cast (`as i16`) is `satI16`.
* Rust `String` is modelled as `List Char` (`Str`); UTF-8 byte length is
  `utf8Len`.
* `HashMap<PathColour, Vec<T>>` is modelled as an association list with
  pairwise-distinct keys (`PathsByColour`); the pipeline only iterates maps or
  reads them through `get`, so an association list is a faithful model.
-/

set_option maxRecDepth 10000

/-- Rust strings, modelled as lists of characters. -/
abbrev Str := List Char

/-- UTF-8 byte length of a string (Rust `str::len`). -/
def utf8Len (s : Str) : ℕ := (s.map Char.utf8Size).sum

/-- Decimal digits of a natural number, most significant first.
The first argument is recursion fuel (any bound on the digit count). -/
def natDecimalAux : ℕ → ℕ → Str
  | 0, _ => []
  | f + 1, n => if n = 0 then [] else natDecimalAux f (n / 10) ++ [Nat.digitChar (n % 10)]

/-- Decimal rendering of a natural number (Rust `format!` of an unsigned integer). -/
def natDecimal (n : ℕ) : Str := if n = 0 then ['0'] else natDecimalAux (n + 1) n

/-- Decimal rendering of an integer (Rust `format!` of a signed integer). -/
def intDecimal (z : ℤ) : Str :=
  if z < 0 then '-' :: natDecimal z.natAbs else natDecimal z.natAbs

/-- `f32::round`: round to nearest integer, ties away from zero. -/
def roundHalfAway (q : ℚ) : ℤ := if 0 ≤ q then ⌊q + 1/2⌋ else -⌊-q + 1/2⌋

/-- The saturating float-to-`i16` cast (`as i16` in Rust). -/
def satI16 (z : ℤ) : ℤ := max (-32768) (min 32767 z)

/-! ## Data model (`paths.rs`, `laser_passes.rs`) -/

/-- `MM_PER_PLOTTER_UNIT` from `paths.rs`: the HPGL/2 default of 0.025 mm. -/
def MM_PER_PLOTTER_UNIT : ℚ := 1/40

/-- `BED_X_AXIS_MAXIMUM_MM` from `lib.rs` (901.52 mm). -/
def BED_X_AXIS_MAXIMUM_MM : ℚ := 22538/25

/-- `BED_Y_AXIS_MAXIMUM_MM` from `lib.rs` (463.20 mm). -/
def BED_Y_AXIS_MAXIMUM_MM : ℚ := 2316/5

/-- `BED_WIDTH_MM` from `lib.rs`. -/
def BED_WIDTH_MM : ℚ := BED_X_AXIS_MAXIMUM_MM

/-- `BED_HEIGHT_MM` from `lib.rs`. -/
def BED_HEIGHT_MM : ℚ := BED_Y_AXIS_MAXIMUM_MM

/-- `ResolvedPoint` from `paths.rs`: a point in signed 16-bit plotter units. -/
structure ResolvedPoint where
  x : ℤ
  y : ℤ
deriving DecidableEq, Repr

/-- `PointInMillimeters` from `paths.rs`. -/
structure PointInMillimeters where
  x : ℚ
  y : ℚ
deriving DecidableEq, Repr

/-- `PathColour` from `paths.rs`: an `[u8; 3]` RGB triple. -/
abbrev PathColour := ℕ × ℕ × ℕ

/-- `ResolvedPath` from `paths.rs`. -/
abbrev ResolvedPath := List ResolvedPoint

/-- `PathInMM` from `paths.rs`. -/
abbrev PathInMM := List PointInMillimeters

/-- `ToolPass` from `laser_passes.rs`. -/
structure ToolPass where
  name : Str
  colour : PathColour
  power : ℕ
  speed : ℕ
  enabled : Bool
deriving DecidableEq, Repr

/-- `ToolPass::new`: clamps `power` and `speed` to at most 1000. -/
def ToolPass.new (name : Str) (r g b : ℕ) (power speed : ℕ) (enabled : Bool) : ToolPass :=
  { name := name, colour := (r, g, b), power := min power 1000, speed := min speed 1000,
    enabled := enabled }

/-- A `HashMap<PathColour, Vec<Vec<T>>>`, modelled as an association list. -/
abbrev PathsByColour (α : Type) := List (PathColour × List (List α))

/-- `HashMap::get` on the association-list model. -/
def getColour {α : Type} (m : PathsByColour α) (c : PathColour) : Option (List (List α)) :=
  (m.find? fun e => e.1 = c).map (·.2)

/-! ## mm → plotter-unit conversion (`paths.rs`) -/

/-- `mm_to_hpgl_units` from `paths.rs`: mirrors the vertical axis about
`BED_HEIGHT_MM`, divides by 0.025 and rounds, saturating into `i16`. -/
def mm_to_hpgl_units (mm : ℚ) (is_x_axis : Bool) : ℤ :=
  let position_mm := if is_x_axis then mm else BED_HEIGHT_MM - mm
  satI16 (roundHalfAway (position_mm / MM_PER_PLOTTER_UNIT))

/-- `points_in_mm_to_printer_units` from `paths.rs`: converts every point of a
polyline (the Rust loop pushes one converted point per input point). -/
def points_in_mm_to_printer_units (points : PathInMM) : ResolvedPath :=
  points.map fun point =>
    { x := mm_to_hpgl_units point.x true, y := mm_to_hpgl_units point.y false }

/-- The `resolved_paths.entry(colour).or_default().push(path)` pattern from
`convert_points_to_plotter_units`: append to the bucket of `c`, creating it
if absent. -/
def entryPush {α : Type} : PathsByColour α → PathColour → List α → PathsByColour α
  | [], c, path => [(c, [path])]
  | (c', b) :: rest, c, path =>
    if c' = c then (c', b ++ [path]) :: rest else (c', b) :: entryPush rest c path

/-- `convert_points_to_plotter_units` from `paths.rs`: iterates the map and
pushes each converted polyline into the entry of its colour. -/
def convert_points_to_plotter_units (paths_in_mm : PathsByColour PointInMillimeters) :
    PathsByColour ResolvedPoint :=
  paths_in_mm.foldl
    (fun acc e =>
      e.2.foldl (fun acc2 path => entryPush acc2 e.1 (points_in_mm_to_printer_units path)) acc)
    []

/-- `filter_paths_to_tool_passes` from `paths.rs`: retain only colours that
equal the colour of some enabled tool pass. -/
def filter_paths_to_tool_passes (paths : PathsByColour PointInMillimeters)
    (tool_passes : List ToolPass) : PathsByColour PointInMillimeters :=
  paths.filter fun e => tool_passes.any fun pass => pass.colour = e.1 && pass.enabled

/-! ## Bed model (`bed.rs`) -/

/-- `PrintBed` from `bed.rs`: axis ranges in mm plus mirror flags. The Rust
`RangeInclusive<f32>` fields are split into start/end rationals. -/
structure PrintBed where
  x_start : ℚ
  x_end : ℚ
  y_start : ℚ
  y_end : ℚ
  mirror_x : Bool
  mirror_y : Bool
deriving DecidableEq, Repr

/-- Lower endpoint of `VALID_MM_RANGE` from `bed.rs`: `i16::MIN * 0.025`. -/
def VALID_MM_RANGE_START : ℚ := -32768 * MM_PER_PLOTTER_UNIT

/-- Upper endpoint of `VALID_MM_RANGE` from `bed.rs`: `i16::MAX * 0.025`. -/
def VALID_MM_RANGE_END : ℚ := 32767 * MM_PER_PLOTTER_UNIT

/-- The `validate` closure in `PrintBed::new`: clamp an axis endpoint into the
HPGL-representable mm range (finiteness is inherent in `ℚ`). -/
def validateAxisValue (val : ℚ) : ℚ :=
  if val < VALID_MM_RANGE_START ∨ VALID_MM_RANGE_END < val then
    max VALID_MM_RANGE_START (min VALID_MM_RANGE_END val)
  else val

/-- `PrintBed::new` from `bed.rs`. The Rust constructor panics when an axis is
out of order; the panic is modelled as `none`. Endpoints are clamped by
`validateAxisValue`. -/
def PrintBed.new (x_axis : ℚ × ℚ) (mirror_x : Bool) (y_axis : ℚ × ℚ) (mirror_y : Bool) :
    Option PrintBed :=
  if x_axis.1 ≤ x_axis.2 ∧ y_axis.1 ≤ y_axis.2 then
    some
      { x_start := validateAxisValue x_axis.1, x_end := validateAxisValue x_axis.2,
        y_start := validateAxisValue y_axis.1, y_end := validateAxisValue y_axis.2,
        mirror_x := mirror_x, mirror_y := mirror_y }
  else none

/-- `BED_GCC_SPIRIT` from `bed.rs`: `PrintBed::new((0.0, 901.52), false, (0.0, 463.20), true)`,
written out with the constructor's clamping applied (see `BED_GCC_SPIRIT_spec`). -/
def BED_GCC_SPIRIT : PrintBed :=
  { x_start := validateAxisValue 0, x_end := validateAxisValue BED_X_AXIS_MAXIMUM_MM,
    y_start := validateAxisValue 0, y_end := validateAxisValue BED_Y_AXIS_MAXIMUM_MM,
    mirror_x := false, mirror_y := true }

/-- The inner `mm_to_hpgl` closure of `PrintBed::place_point`: optionally
mirror, divide by 0.025, reject values outside the `f32` image of `i16`
*before* rounding, then round. -/
def bedMmToHpgl (value : ℚ) (mirror : Option ℚ) : Option ℤ :=
  let v := match mirror with
    | some max => max - value
    | none => value
  let adjusted := v / MM_PER_PLOTTER_UNIT
  if adjusted < -32768 ∨ 32767 < adjusted then none else some (roundHalfAway adjusted)

/-- `PrintBed::place_point` from `bed.rs`: bounds-check against the axes, then
convert each coordinate with `bedMmToHpgl`. -/
def PrintBed.place_point (bed : PrintBed) (point : PointInMillimeters) :
    Option ResolvedPoint :=
  if ¬(bed.x_start ≤ point.x ∧ point.x ≤ bed.x_end) then none
  else if ¬(bed.y_start ≤ point.y ∧ point.y ≤ bed.y_end) then none
  else
    match bedMmToHpgl point.x (if bed.mirror_x then some bed.x_end else none),
        bedMmToHpgl point.y (if bed.mirror_y then some bed.y_end else none) with
    | some x, some y => some { x := x, y := y }
    | _, _ => none

/-- `PrintBed::width`. -/
def PrintBed.width (bed : PrintBed) : ℚ := bed.x_end - bed.x_start

/-- `PrintBed.height`. -/
def PrintBed.height (bed : PrintBed) : ℚ := bed.y_end - bed.y_start

/-- Modelled from the spec: `PrintBed::mm_to_hpgl_units_x` is called by
`generate_hpgl` in `hpgl.rs` but its body is not part of the source snapshot.
Per §4.6 of the spec the header/terminator coordinates are "mapped by the bed",
so the model applies the bed's mirror-aware mm → plotter-unit mapping
(total, saturating like `mm_to_hpgl_units` in `paths.rs`). -/
def PrintBed.mm_to_hpgl_units_x (bed : PrintBed) (mm : ℚ) : ℤ :=
  satI16 (roundHalfAway ((if bed.mirror_x then bed.x_end - mm else mm) / MM_PER_PLOTTER_UNIT))

/-- Modelled from the spec: `PrintBed::mm_to_hpgl_units_y`, the y-axis
counterpart of `PrintBed.mm_to_hpgl_units_x`. -/
def PrintBed.mm_to_hpgl_units_y (bed : PrintBed) (mm : ℚ) : ℤ :=
  satI16 (roundHalfAway ((if bed.mirror_y then bed.y_end - mm else mm) / MM_PER_PLOTTER_UNIT))

/-! ## HPGL emitter (`hpgl.rs`) -/

/-- `pen_change` from `hpgl.rs`: `SP{pen_index + 1};`. -/
def pen_change (pen_index : ℕ) : Str :=
  "SP".data ++ natDecimal (pen_index + 1) ++ ";".data

/-- The `PU{x},{y};` fragment pushed for the first point in `trace_path`. -/
def puCmd (p : ResolvedPoint) : Str :=
  "PU".data ++ intDecimal p.x ++ ",".data ++ intDecimal p.y ++ ";".data

/-- The `PD{x},{y};` fragment pushed per point in `trace_path`. -/
def pdCmd (p : ResolvedPoint) : Str :=
  "PD".data ++ intDecimal p.x ++ ",".data ++ intDecimal p.y ++ ";".data

/-- `trace_path` from `hpgl.rs`: a `PU` for the first point (if any), then the
loop `for point in path` pushes a `PD` for **every** point. -/
def trace_path (path : ResolvedPath) : Str :=
  (match path.head? with
    | some point => puCmd point
    | none => []) ++
  (path.map pdCmd).flatten

/-- The body of the `'laser_passes_iter` loop in `generate_hpgl` at index
`index` for tool pass `pass`: if `resolved_paths.get` finds a non-empty bucket
for the pass's colour, append a pen change and the traced paths. -/
def hpglPassEmit (resolved_paths : PathsByColour ResolvedPoint) (index : ℕ)
    (pass : ToolPass) : Str :=
  match getColour resolved_paths pass.colour with
  | some paths => if paths.isEmpty then [] else pen_change index ++ (paths.map trace_path).flatten
  | none => []

/-- `generate_hpgl` from `hpgl.rs`. Returns its diagnostics as the output
string, exactly as the Rust function does. -/
def generate_hpgl (resolved_paths : PathsByColour ResolvedPoint)
    (tool_passes : List ToolPass) (print_bed : PrintBed) : Str :=
  if tool_passes.length ≠ 16 then "Exactly 16 tool passes are required".data
  else
    match (tool_passes.findIdx? fun pass => pass.enabled) with
    | none => "No tool passes enabled".data
    | some first_pen =>
      "IN;SC;PU;".data ++ pen_change first_pen ++ "LT;PU".data ++
        intDecimal (print_bed.mm_to_hpgl_units_x 0) ++ ",".data ++
        intDecimal (print_bed.mm_to_hpgl_units_y 0) ++ ";".data ++
      (tool_passes.enum.foldl (fun hpgl e => hpgl ++ hpglPassEmit resolved_paths e.1 e.2) []) ++
      "PU".data ++ intDecimal (print_bed.mm_to_hpgl_units_x 0) ++ ",".data ++
        intDecimal (print_bed.mm_to_hpgl_units_y 0) ++ ";SP0;EC0;EC1;OE;".data

/-! ## PCL envelope (`pcl.rs`) -/

/-- The `ESC` character (0x1B). -/
def ESC : Char := Char.ofNat 27

/-- `ascii::AsciiChar::SOX` (0x02), pushed for an enabled pen. -/
def SOX : Char := Char.ofNat 2

/-- `ascii::AsciiChar::Null` (0x00), pushed for a disabled pen. -/
def NULchar : Char := Char.ofNat 0

/-- `pjl_universal_exit_language` from `pcl.rs`: `ESC %-12345X`. -/
def pjl_universal_exit_language : Str := ESC :: "%-12345X".data

/-- `pcl_reset` from `pcl.rs`: `ESC E`. -/
def pcl_reset : Str := ESC :: "E".data

/-- `pcl_filename` from `pcl.rs`: `ESC ! m <len> N <filename>` with `len` the
UTF-8 byte length of the filename (Rust `str::len`). -/
def pcl_filename (filename : Str) : Str :=
  ESC :: "!m".data ++ natDecimal (utf8Len filename) ++ "N".data ++ filename

/-- Rust's `format!("{:0>4}", n)`: left-pad the decimal rendering with `'0'`
to at least four characters. -/
def padZero4 (s : Str) : Str := List.replicate (4 - s.length) '0' ++ s

/-- The 16 `'1'` characters (one per pen) of the pen table's `R` section. -/
def penTableRBody (tool_passes : List ToolPass) : Str :=
  (tool_passes.map fun _ => ['1']).flatten

/-- The pen-PPI (`I`) section body: `0400` per pen. -/
def penTableIBody (tool_passes : List ToolPass) : Str :=
  (tool_passes.map fun _ => "0400".data).flatten

/-- The pen-speed (`V`) section body: speed zero-padded to width 4, per pen. -/
def penTableVBody (tool_passes : List ToolPass) : Str :=
  (tool_passes.map fun pen => padZero4 (natDecimal pen.speed)).flatten

/-- The pen-power (`P`) section body: power zero-padded to width 4, per pen. -/
def penTablePBody (tool_passes : List ToolPass) : Str :=
  (tool_passes.map fun pen => padZero4 (natDecimal pen.power)).flatten

/-- The pen-enable (`D`) section body: `SOX` per enabled pen, `NUL` otherwise. -/
def penTableDBody (tool_passes : List ToolPass) : Str :=
  (tool_passes.map fun pass => if pass.enabled then [SOX] else [NULchar]).flatten

/-- `pcl_pen_table` from `pcl.rs`. `num_pens` is the length of the given list
and `message_bytes` is `4 * num_pens`; on the device path the list has already
been normalised to 16 entries by `planchette` (see
`planchette_normalize_tool_passes`). -/
def pcl_pen_table (tool_passes : List ToolPass) : Str :=
  let num_pens := tool_passes.length
  let message_bytes := num_pens * 4
  (ESC :: "!v".data ++ natDecimal num_pens ++ "R".data) ++ penTableRBody tool_passes ++
  (ESC :: "!v".data ++ natDecimal message_bytes ++ "I".data) ++ penTableIBody tool_passes ++
  (ESC :: "!v".data ++ natDecimal message_bytes ++ "V".data) ++ penTableVBody tool_passes ++
  (ESC :: "!v".data ++ natDecimal message_bytes ++ "P".data) ++ penTablePBody tool_passes ++
  (ESC :: "!v".data ++ natDecimal num_pens ++ "D".data) ++ penTableDBody tool_passes

/-- `pcl_raster_resolution` from `pcl.rs`: `ESC * t <dpi> R`. -/
def pcl_raster_resolution (dpi : ℕ) : Str :=
  ESC :: "*t".data ++ natDecimal dpi ++ "R".data

/-- `pcl_unit_of_measure` from `pcl.rs`: `ESC & u <dpi> R`. -/
def pcl_unit_of_measure (dpi : ℕ) : Str :=
  ESC :: "&u".data ++ natDecimal dpi ++ "R".data

/-- `pcl_enter_pcl_mode` from `pcl.rs`: `ESC % 1 A`. -/
def pcl_enter_pcl_mode : Str := ESC :: "%1A".data

/-- `pcl_enter_hpgl_mode` from `pcl.rs`: `ESC % 1 B`. -/
def pcl_enter_hpgl_mode : Str := ESC :: "%1B".data

/-- `wrap_hpgl_in_pcl` from `pcl.rs`: joins the 17 envelope items with no
separator. -/
def wrap_hpgl_in_pcl (hpgl : Str) (filename : Str) (laser_passes : List ToolPass) : Str :=
  [pjl_universal_exit_language,
   pcl_reset,
   pcl_filename filename,
   pcl_pen_table laser_passes,
   pcl_raster_resolution 508,
   pcl_unit_of_measure 508,
   ESC :: "!r0N".data,
   pcl_enter_pcl_mode,
   ESC :: "!r1000I".data ++ ESC :: "!r1000K".data ++ ESC :: "!r500P".data,
   pcl_raster_resolution 508,
   pcl_unit_of_measure 508,
   ESC :: "!m0S".data ++ ESC :: "!s1S".data,
   pcl_enter_hpgl_mode,
   hpgl,
   pcl_enter_pcl_mode,
   pcl_reset,
   pjl_universal_exit_language].flatten

/-! ## Preparation run (`lib.rs`) -/

/-- The post-parse pipeline of `cut_file` from `lib.rs`, starting from the
flattened mm paths (SVG parsing and path flattening abstracted away): filter to
enabled tool-pass colours, convert to plotter units, generate HPGL, and wrap
the result — whatever it is — in the PCL envelope. This is the exact byte
payload handed to `PrintDevice::print`. -/
def cut_file_payload (paths_in_mm : PathsByColour PointInMillimeters)
    (tool_passes : List ToolPass) (design_name : Str) : Str :=
  let paths_filtered := filter_paths_to_tool_passes paths_in_mm tool_passes
  let resolved_paths := convert_points_to_plotter_units paths_filtered
  let hpgl := generate_hpgl resolved_paths tool_passes BED_GCC_SPIRIT
  wrap_hpgl_in_pcl hpgl design_name tool_passes

/-- The writes `cut_file` performs on the print device: `print` is called
unconditionally with the wrapped payload (the emitter's diagnostics are not
checked), so exactly one write of `cut_file_payload` happens whenever the
device is reachable. -/
def cut_file_writes (paths_in_mm : PathsByColour PointInMillimeters)
    (tool_passes : List ToolPass) (design_name : Str) : List Str :=
  [cut_file_payload paths_in_mm tool_passes design_name]

/-! ## Preview worker mailbox (`app/preview.rs`)

`DesignPreview::render` (and `new`, and the reconnect arm of `image`) locks
the shared `Arc<Mutex<Option<RenderRequest>>>` and overwrites it with
`Some(request)`; `render_task` locks it and `take()`s it, rendering the taken
request if any. The mutex serialises all accesses, so an execution is exactly
a sequence of atomic `submit`/`take` events; the model below is the induced
transition system on the one-slot mailbox. -/

/-- An atomic event on the preview mailbox: a producer's
`*render_request_lock = Some(r)` or the worker's `request_lock.take()`. -/
inductive PreviewEvent (R : Type) where
  | submit (r : R)
  | take
deriving DecidableEq

/-- One step of the mailbox: a submit overwrites the slot, a take empties it. -/
def mailboxStep {R : Type} : Option R → PreviewEvent R → Option R
  | _, .submit r => some r
  | _, .take => none

/-- The mailbox contents after a trace of events, starting empty. -/
def mailboxAfter {R : Type} (es : List (PreviewEvent R)) : Option R :=
  es.foldl mailboxStep none

/-- The requests actually rendered along a trace: each `take` renders the
request found in the slot, if any. -/
def renderedFrom {R : Type} : Option R → List (PreviewEvent R) → List R
  | _, [] => []
  | _, .submit r :: rest => renderedFrom (some r) rest
  | s, .take :: rest => s.toList ++ renderedFrom none rest

/-- The requests rendered along a trace starting from an empty mailbox. -/
def rendered {R : Type} (es : List (PreviewEvent R)) : List R := renderedFrom none es

/-- The most recent request submitted in a trace, if any. -/
def lastSubmit {R : Type} (es : List (PreviewEvent R)) : Option R :=
  es.foldl (fun acc e => match e with | .submit r => some r | .take => acc) none

/-- The requests submitted in a trace, in order. -/
def submitsOf {R : Type} (es : List (PreviewEvent R)) : List R :=
  es.foldr (fun e acc => match e with | .submit r => r :: acc | .take => acc) []

/-! ## Helper lemmas -/

theorem natDecimalAux_length_le {f n k : ℕ} (hn : n < 10 ^ k) (hf : n ≤ f) :
    (natDecimalAux f n).length ≤ k := by
  induction f generalizing n k with
  | zero => simp [natDecimalAux]
  | succ f ih =>
    by_cases h0 : n = 0
    · simp [natDecimalAux, h0]
    · have hk : k ≠ 0 := by
        rintro rfl
        simp only [pow_zero, Nat.lt_one_iff] at hn
        exact h0 hn
      obtain ⟨k, rfl⟩ := Nat.exists_eq_succ_of_ne_zero hk
      have hdiv : n / 10 < 10 ^ k := Nat.div_lt_of_lt_mul (by simpa [pow_succ, mul_comm] using hn)
      have hfuel : n / 10 ≤ f := by
        have := Nat.div_lt_self (Nat.pos_of_ne_zero h0) (by norm_num : (1 : ℕ) < 10)
        omega
      simp only [natDecimalAux, h0, if_false, List.length_append, List.length_singleton]
      have := ih hdiv hfuel
      omega

theorem natDecimal_length_le {n k : ℕ} (hn : n < 10 ^ k) (hk : 1 ≤ k) :
    (natDecimal n).length ≤ k := by
  by_cases h0 : n = 0
  · simpa [natDecimal, h0] using hk
  · simpa [natDecimal, h0] using natDecimalAux_length_le hn (Nat.le_succ n)

theorem natDecimalAux_ne_nil {f n : ℕ} (h0 : n ≠ 0) (hf : 1 ≤ f) :
    natDecimalAux f n ≠ [] := by
  obtain ⟨f, rfl⟩ := Nat.exists_eq_succ_of_ne_zero (by omega : f ≠ 0)
  simp [natDecimalAux, h0]

theorem natDecimal_ne_nil (n : ℕ) : natDecimal n ≠ [] := by
  by_cases h0 : n = 0
  · simp [natDecimal, h0]
  · simpa [natDecimal, h0] using natDecimalAux_ne_nil h0 (by omega)

theorem natDecimalAux_isDigit {f n : ℕ} {c : Char} (hc : c ∈ natDecimalAux f n) :
    c.isDigit = true := by
  have digitChar_lt : ∀ d : ℕ, d < 10 → (Nat.digitChar d).isDigit = true := by decide
  induction f generalizing n with
  | zero => simp [natDecimalAux] at hc
  | succ f ih =>
    by_cases h0 : n = 0
    · simp [natDecimalAux, h0] at hc
    · simp only [natDecimalAux, h0, if_false, List.mem_append, List.mem_singleton] at hc
      rcases hc with hc | rfl
      · exact ih hc
      · exact digitChar_lt _ (Nat.mod_lt _ (by norm_num))

theorem natDecimal_isDigit {n : ℕ} {c : Char} (hc : c ∈ natDecimal n) :
    c.isDigit = true := by
  by_cases h0 : n = 0
  · simp only [natDecimal, h0, if_true, List.mem_singleton] at hc
    simp [hc]
  · simp only [natDecimal, h0, if_false] at hc
    exact natDecimalAux_isDigit hc

theorem padZero4_length {s : Str} (h : s.length ≤ 4) : (padZero4 s).length = 4 := by
  simp only [padZero4, List.length_append, List.length_replicate]
  omega

theorem padZero4_isDigit {s : Str} {c : Char} (hd : ∀ x ∈ s, x.isDigit = true)
    (hc : c ∈ padZero4 s) : c.isDigit = true := by
  simp only [padZero4, List.mem_append, List.mem_replicate] at hc
  rcases hc with ⟨-, rfl⟩ | hc
  · decide
  · exact hd c hc

/-- The numeric facts about the default bed's clamped axes, used repeatedly. -/
theorem BED_GCC_SPIRIT_eq :
    BED_GCC_SPIRIT = ⟨0, 32767/40, 0, 2316/5, false, true⟩ := by
  norm_num [BED_GCC_SPIRIT, validateAxisValue, VALID_MM_RANGE_START, VALID_MM_RANGE_END,
    BED_X_AXIS_MAXIMUM_MM, BED_Y_AXIS_MAXIMUM_MM, MM_PER_PLOTTER_UNIT]

theorem BED_GCC_SPIRIT_hpgl_units_x_zero : BED_GCC_SPIRIT.mm_to_hpgl_units_x 0 = 0 := by
  rw [BED_GCC_SPIRIT_eq]
  norm_num [PrintBed.mm_to_hpgl_units_x, satI16, roundHalfAway, MM_PER_PLOTTER_UNIT]

theorem BED_GCC_SPIRIT_hpgl_units_y_zero : BED_GCC_SPIRIT.mm_to_hpgl_units_y 0 = 18528 := by
  rw [BED_GCC_SPIRIT_eq]
  norm_num [PrintBed.mm_to_hpgl_units_y, satI16, roundHalfAway, MM_PER_PLOTTER_UNIT]

/-! ## Claim C8 -/

/-- C8 counterexample: the claim states that the default GCC Spirit bed has
`x_axis = [0, 901.52]` and `width() = 901.52`, but the constructor clamps the
upper x endpoint to the HPGL-representable maximum `32767 · 0.025 = 819.175`,
so both the endpoint and the width are `819.175 ≠ 901.52`. -/
theorem C8_default_bed_x_axis_clamped :
    BED_GCC_SPIRIT.x_end = 32767/40 ∧ BED_GCC_SPIRIT.width = 32767/40 ∧
      (32767/40 : ℚ) ≠ 22538/25 := by
  rw [BED_GCC_SPIRIT_eq]
  norm_num [PrintBed.width]

/-- C8 (amended): the default GCC Spirit bed is built by
`PrintBed::new((0, 901.52), false, (0, 463.20), true)`; construction clamps the
x endpoint to 819.175 mm, giving `x_axis = [0, 819.175]`,
`y_axis = [0, 463.20]`, `mirror_x = false`, `mirror_y = true`,
`width() = 819.175` and `height() = 463.20`. -/
theorem C8_default_bed_value :
    PrintBed.new (0, BED_X_AXIS_MAXIMUM_MM) false (0, BED_Y_AXIS_MAXIMUM_MM) true =
        some BED_GCC_SPIRIT ∧
      BED_GCC_SPIRIT = ⟨0, 32767/40, 0, 2316/5, false, true⟩ ∧
      BED_GCC_SPIRIT.width = 32767/40 ∧ BED_GCC_SPIRIT.height = 2316/5 := by
  refine ⟨?_, BED_GCC_SPIRIT_eq, ?_, ?_⟩
  · rw [PrintBed.new, if_pos]
    · rfl
    · constructor <;> norm_num [BED_X_AXIS_MAXIMUM_MM, BED_Y_AXIS_MAXIMUM_MM]
  · rw [BED_GCC_SPIRIT_eq]; norm_num [PrintBed.width]
  · rw [BED_GCC_SPIRIT_eq]; norm_num [PrintBed.height]

/-! ## Pen-table section lemmas -/

theorem padZero4_natDecimal_length {n : ℕ} (h : n ≤ 9999) :
    (padZero4 (natDecimal n)).length = 4 :=
  padZero4_length (natDecimal_length_le (by norm_num; omega) (by norm_num))

theorem penTableRBody_count (passes : List ToolPass) :
    (penTableRBody passes).count '1' = passes.length := by
  induction passes with
  | nil => simp [penTableRBody]
  | cons p ps ih => simp [penTableRBody, List.count_append, ih]

theorem penTableRBody_length (passes : List ToolPass) :
    (penTableRBody passes).length = passes.length := by
  induction passes with
  | nil => simp [penTableRBody]
  | cons p ps ih => simp [penTableRBody, ih]

theorem penTableIBody_length (passes : List ToolPass) :
    (penTableIBody passes).length = 4 * passes.length := by
  induction passes with
  | nil => simp [penTableIBody]
  | cons p ps ih =>
    simp only [penTableIBody, List.map_cons, List.flatten_cons, List.length_append] at *
    simp [ih]
    ring

theorem penTableVBody_length (passes : List ToolPass)
    (hs : ∀ p ∈ passes, p.speed ≤ 9999) :
    (penTableVBody passes).length = 4 * passes.length := by
  induction passes with
  | nil => simp [penTableVBody]
  | cons p ps ih =>
    have h4 : (padZero4 (natDecimal p.speed)).length = 4 :=
      padZero4_natDecimal_length (hs p (List.mem_cons_self p ps))
    have hrec := ih fun q hq => hs q (List.mem_cons_of_mem p hq)
    simp only [penTableVBody, List.map_cons, List.flatten_cons, List.length_append,
      List.length_cons, h4] at *
    omega

theorem penTablePBody_length (passes : List ToolPass)
    (hp : ∀ p ∈ passes, p.power ≤ 9999) :
    (penTablePBody passes).length = 4 * passes.length := by
  induction passes with
  | nil => simp [penTablePBody]
  | cons p ps ih =>
    have h4 : (padZero4 (natDecimal p.power)).length = 4 :=
      padZero4_natDecimal_length (hp p (List.mem_cons_self p ps))
    have hrec := ih fun q hq => hp q (List.mem_cons_of_mem p hq)
    simp only [penTablePBody, List.map_cons, List.flatten_cons, List.length_append,
      List.length_cons, h4] at *
    omega

theorem penTableIBody_isDigit (passes : List ToolPass) :
    ∀ c ∈ penTableIBody passes, c.isDigit = true := by
  intro c hc
  simp only [penTableIBody, List.mem_flatten, List.mem_map] at hc
  obtain ⟨l, ⟨p, hmem, rfl⟩, hcl⟩ := hc
  have hall : ∀ x ∈ ("0400".data : Str), x.isDigit = true := by decide
  exact hall c hcl

theorem penTableVBody_isDigit (passes : List ToolPass) :
    ∀ c ∈ penTableVBody passes, c.isDigit = true := by
  intro c hc
  simp only [penTableVBody, List.mem_flatten, List.mem_map] at hc
  obtain ⟨l, ⟨p, hmem, rfl⟩, hcl⟩ := hc
  exact padZero4_isDigit (fun x hx => natDecimal_isDigit hx) hcl

theorem penTablePBody_isDigit (passes : List ToolPass) :
    ∀ c ∈ penTablePBody passes, c.isDigit = true := by
  intro c hc
  simp only [penTablePBody, List.mem_flatten, List.mem_map] at hc
  obtain ⟨l, ⟨p, hmem, rfl⟩, hcl⟩ := hc
  exact padZero4_isDigit (fun x hx => natDecimal_isDigit hx) hcl

theorem penTableDBody_length (passes : List ToolPass) :
    (penTableDBody passes).length = passes.length := by
  induction passes with
  | nil => simp [penTableDBody]
  | cons p ps ih =>
    by_cases hpe : p.enabled <;> simpa [penTableDBody, hpe] using ih

theorem penTableDBody_mem (passes : List ToolPass) :
    ∀ c ∈ penTableDBody passes, c = SOX ∨ c = NULchar := by
  intro c hc
  simp only [penTableDBody, List.mem_flatten, List.mem_map] at hc
  obtain ⟨l, ⟨p, hmem, rfl⟩, hcl⟩ := hc
  by_cases hpe : p.enabled <;> simp_all

theorem penTableDBody_count (passes : List ToolPass) :
    (penTableDBody passes).count SOX = (passes.filter fun p => p.enabled).length := by
  induction passes with
  | nil => simp [penTableDBody]
  | cons p ps ih =>
    by_cases hpe : p.enabled <;>
      simpa [penTableDBody, List.count_append, List.filter_cons, hpe, SOX, NULchar] using ih

/-! ## Concrete conversion values -/

theorem mm_to_hpgl_units_0_x : mm_to_hpgl_units 0 true = 0 := by
  norm_num [mm_to_hpgl_units, satI16, roundHalfAway, MM_PER_PLOTTER_UNIT]

theorem mm_to_hpgl_units_10_x : mm_to_hpgl_units 10 true = 400 := by
  norm_num [mm_to_hpgl_units, satI16, roundHalfAway, MM_PER_PLOTTER_UNIT]

theorem mm_to_hpgl_units_0_y : mm_to_hpgl_units 0 false = 18528 := by
  norm_num [mm_to_hpgl_units, satI16, roundHalfAway, MM_PER_PLOTTER_UNIT, BED_HEIGHT_MM,
    BED_Y_AXIS_MAXIMUM_MM]

/-- The tool program of spec scenario 2: pass 1 enabled and black, the other
15 passes disabled with non-black colours. -/
def scenarioPasses : List ToolPass :=
  ToolPass.new "Pass 1".data 0 0 0 100 20 true ::
    (List.range 15).map fun i => ToolPass.new "off".data 1 (i + 1) 1 100 20 false

/-- The design of spec scenario 2: a single black line from (0,0) to (10,0) mm. -/
def scenarioLineMM : PathsByColour PointInMillimeters :=
  [((0, 0, 0), [[⟨0, 0⟩, ⟨10, 0⟩]])]

/-- The HPGL produced for spec scenario 2 by the cutting pipeline. -/
def scenarioHpgl : Str :=
  generate_hpgl (convert_points_to_plotter_units scenarioLineMM) scenarioPasses BED_GCC_SPIRIT

theorem scenarioLine_resolved :
    convert_points_to_plotter_units scenarioLineMM =
      [((0, 0, 0), [[⟨0, 18528⟩, ⟨400, 18528⟩]])] := by
  simp [scenarioLineMM, convert_points_to_plotter_units, entryPush,
    points_in_mm_to_printer_units, mm_to_hpgl_units_0_x, mm_to_hpgl_units_10_x,
    mm_to_hpgl_units_0_y]

theorem scenarioHpgl_eval :
    scenarioHpgl =
      "IN;SC;PU;SP1;LT;PU0,18528;SP1;PU0,18528;PD0,18528;PD400,18528;PU0,18528;SP0;EC0;EC1;OE;".data := by
  rw [scenarioHpgl, scenarioLine_resolved]
  rw [generate_hpgl]
  rw [if_neg (by decide)]
  rw [show (scenarioPasses.findIdx? fun pass => pass.enabled) = some 0 from by decide]
  rw [BED_GCC_SPIRIT_hpgl_units_x_zero, BED_GCC_SPIRIT_hpgl_units_y_zero]
  decide

/-! ## Claim C3 -/

/-- C3 counterexample: the claim says a polyline's HPGL has no `PD` for its
first point and that scenario 2 yields the contiguous substring
`PU0,18528;PD400,18528;`. In fact `trace_path`'s loop emits a `PD` for
**every** point, the first included, so the polyline
`[(0,18528), (400,18528)]` traces to `PU0,18528;PD0,18528;PD400,18528;` and
the claimed substring does not occur anywhere in the scenario's HPGL. -/
theorem C3_first_point_pen_down_counterexample :
    trace_path [⟨0, 18528⟩, ⟨400, 18528⟩] = "PU0,18528;PD0,18528;PD400,18528;".data ∧
      ¬("PU0,18528;PD400,18528;".data <:+: scenarioHpgl) := by
  rw [scenarioHpgl_eval]
  constructor
  · decide
  · decide

/-- C3 (amended): for every non-empty polyline the emitted HPGL is one `PU`
command for the first point followed by one `PD` command for **every** point
of the polyline, the first included; scenario 2 (single line (0,0)→(10,0) mm,
pass 1 enabled black, default bed) therefore produces HPGL containing the
contiguous substring `PU0,18528;PD0,18528;PD400,18528;`. -/
theorem C3_trace_path_layout (p : ResolvedPoint) (rest : List ResolvedPoint) :
    trace_path (p :: rest) =
        "PU".data ++ intDecimal p.x ++ ",".data ++ intDecimal p.y ++ ";".data ++
          (pdCmd p ++ (rest.map pdCmd).flatten) ∧
      "PU0,18528;PD0,18528;PD400,18528;".data <:+: scenarioHpgl := by
  constructor
  · simp [trace_path, puCmd]
  · rw [scenarioHpgl_eval]
    decide

/-- Appending-fold written as a flattened map: the shape of the emit loop in
`generate_hpgl`. -/
theorem foldl_append_map {α β : Type} (f : α → List β) (l : List α) :
    ∀ init : List β, l.foldl (fun s e => s ++ f e) init = init ++ (l.map f).flatten := by
  induction l with
  | nil => intro init; simp
  | cons a l ih =>
    intro init
    simp [List.foldl_cons, ih (init ++ f a)]

/-! ## Claim C6 -/

/-- A tool program with two black passes: pass 1 (index 0) is black and
*disabled*, pass 2 (index 1) is black and enabled; the remaining 14 passes
are disabled with non-black colours. -/
def c6Passes : List ToolPass :=
  ToolPass.new "Pass 1".data 0 0 0 100 20 false ::
    ToolPass.new "Pass 2".data 0 0 0 100 20 true ::
    ((List.range 14).map fun i => ToolPass.new "off".data 1 (i + 1) 1 100 20 false)

/-- A single black bucket holding one one-point polyline. -/
def c6Map : PathsByColour ResolvedPoint := [((0, 0, 0), [[⟨0, 18528⟩]])]

theorem c6_generate_hpgl_eval :
    generate_hpgl c6Map c6Passes BED_GCC_SPIRIT =
      "IN;SC;PU;SP2;LT;PU0,18528;SP1;PU0,18528;PD0,18528;SP2;PU0,18528;PD0,18528;PU0,18528;SP0;EC0;EC1;OE;".data := by
  rw [generate_hpgl]
  rw [if_neg (by decide)]
  rw [show (c6Passes.findIdx? fun pass => pass.enabled) = some 1 from by decide]
  rw [BED_GCC_SPIRIT_hpgl_units_x_zero, BED_GCC_SPIRIT_hpgl_units_y_zero]
  decide

/-- C6 counterexample: pass 1 (index 0) of `c6Passes` is disabled, yet —
because the emit loop of `generate_hpgl` never consults `enabled` — the black
bucket is emitted under that pass's pen: the output contains
`SP1;PU0,18528;PD0,18528;`, refuting the claim that a disabled pass's bucket
is never emitted under that pass's pen. -/
theorem C6_disabled_pass_pen_counterexample :
    (c6Passes.head?.map fun pass => pass.enabled) = some false ∧
      hpglPassEmit c6Map 0 (ToolPass.new "Pass 1".data 0 0 0 100 20 false) =
        "SP1;PU0,18528;PD0,18528;".data ∧
      "SP1;PU0,18528;PD0,18528;".data <:+: generate_hpgl c6Map c6Passes BED_GCC_SPIRIT := by
  rw [c6_generate_hpgl_eval]
  refine ⟨by decide, by decide, by decide⟩

/-- C6 (amended): during HPGL emission, for each pass index `i` in
tool-program order, `SP(i+1)` followed by the bucket of pass `i`'s colour is
emitted exactly when that bucket exists and is non-empty — the pass's
`enabled` flag is *not* consulted, so every pass (enabled or not) whose colour
has a non-empty bucket re-emits that bucket under its own pen; the body of the
output is the in-order concatenation of these per-index emissions. -/
theorem C6_emit_per_pass_index (m : PathsByColour ResolvedPoint) (passes : List ToolPass)
    (bed : PrintBed) (k : ℕ) (h16 : passes.length = 16)
    (hk : (passes.findIdx? fun pass => pass.enabled) = some k) :
    generate_hpgl m passes bed =
        "IN;SC;PU;".data ++ pen_change k ++ "LT;PU".data ++
          intDecimal (bed.mm_to_hpgl_units_x 0) ++ ",".data ++
          intDecimal (bed.mm_to_hpgl_units_y 0) ++ ";".data ++
          (passes.enum.map fun e => hpglPassEmit m e.1 e.2).flatten ++
          ("PU".data ++ intDecimal (bed.mm_to_hpgl_units_x 0) ++ ",".data ++
            intDecimal (bed.mm_to_hpgl_units_y 0) ++ ";SP0;EC0;EC1;OE;".data) ∧
      (∀ i pass paths, getColour m pass.colour = some paths → paths ≠ [] →
          hpglPassEmit m i pass = pen_change i ++ (paths.map trace_path).flatten) ∧
      (∀ i pass, getColour m pass.colour = none → hpglPassEmit m i pass = []) ∧
      (∀ i pass, getColour m pass.colour = some [] → hpglPassEmit m i pass = []) := by
  refine ⟨?_, ?_, ?_, ?_⟩
  · rw [generate_hpgl, if_neg (by omega), hk]
    simp only [foldl_append_map (fun e : ℕ × ToolPass => hpglPassEmit m e.1 e.2) passes.enum,
      List.nil_append]
    simp [List.append_assoc]
  · intro i pass paths hget hne
    simp [hpglPassEmit, hget, hne]
  · intro i pass hget
    simp [hpglPassEmit, hget]
  · intro i pass hget
    simp [hpglPassEmit, hget]

/-- C6 witness: the amended emission layout applied to the two-black-pass
program and the one-polyline black bucket. -/
theorem C6_emit_per_pass_index_witness :
    generate_hpgl c6Map c6Passes BED_GCC_SPIRIT =
      "IN;SC;PU;".data ++ pen_change 1 ++ "LT;PU".data ++
        intDecimal (BED_GCC_SPIRIT.mm_to_hpgl_units_x 0) ++ ",".data ++
        intDecimal (BED_GCC_SPIRIT.mm_to_hpgl_units_y 0) ++ ";".data ++
        (c6Passes.enum.map fun e => hpglPassEmit c6Map e.1 e.2).flatten ++
        ("PU".data ++ intDecimal (BED_GCC_SPIRIT.mm_to_hpgl_units_x 0) ++ ",".data ++
          intDecimal (BED_GCC_SPIRIT.mm_to_hpgl_units_y 0) ++ ";SP0;EC0;EC1;OE;".data) :=
  (C6_emit_per_pass_index c6Map c6Passes BED_GCC_SPIRIT 1 (by decide) (by decide)).1

/-! ## Claim C1 -/

/-- A 16-entry tool program in which no pass is enabled. -/
def c1NoneEnabled : List ToolPass :=
  (List.range 16).map fun i => ToolPass.new "off".data i i i 100 20 false

/-- C1: the emitter does return its two diagnostics (for a pass count other
than 16 and for no enabled pass) and emits no HPGL commands — but `cut_file`
is *not* all-or-nothing: it takes whatever string `generate_hpgl` returned,
wraps it (diagnostic text included) in the PCL envelope together with the
design's filename, and hands exactly that byte payload to
`PrintDevice::print`. Bytes derived from the design are therefore sent to the
device on the claimed error path. -/
theorem C1_diagnostic_payload_sent :
    generate_hpgl [] [] BED_GCC_SPIRIT = "Exactly 16 tool passes are required".data ∧
      generate_hpgl [] c1NoneEnabled BED_GCC_SPIRIT = "No tool passes enabled".data ∧
      cut_file_writes [] [] "design.svg".data =
        [cut_file_payload [] [] "design.svg".data] ∧
      cut_file_payload [] [] "design.svg".data =
        wrap_hpgl_in_pcl "Exactly 16 tool passes are required".data "design.svg".data [] ∧
      "Exactly 16 tool passes are required".data <:+:
        cut_file_payload [] [] "design.svg".data ∧
      "design.svg".data <:+: cut_file_payload [] [] "design.svg".data ∧
      cut_file_payload [] [] "design.svg".data ≠ [] := by
  refine ⟨by decide, ?_, by decide, by decide, by decide, by decide, by decide⟩
  rw [generate_hpgl]
  rw [if_neg (by decide)]
  rw [show (c1NoneEnabled.findIdx? fun pass => pass.enabled) = none from by decide]

/-! ## Claim C7 -/

theorem bedMmToHpgl_ifMirror (value m : ℚ) (b : Bool) :
    bedMmToHpgl value (if b then some m else none) =
      if (if b then m - value else value) / MM_PER_PLOTTER_UNIT < -32768 ∨
          32767 < (if b then m - value else value) / MM_PER_PLOTTER_UNIT
        then none
        else some (roundHalfAway ((if b then m - value else value) / MM_PER_PLOTTER_UNIT)) := by
  cases b <;> simp [bedMmToHpgl]

/-- Normal form of `PrintBed::place_point`: one combined rejection condition,
with the plotter-unit range tested on the quotient *before* rounding. -/
theorem place_point_normal (xs xe ys ye : ℚ) (mx my : Bool) (px py : ℚ) :
    PrintBed.place_point ⟨xs, xe, ys, ye, mx, my⟩ ⟨px, py⟩ =
      if px < xs ∨ xe < px ∨ py < ys ∨ ye < py ∨
          (if mx then xe - px else px) / MM_PER_PLOTTER_UNIT < -32768 ∨
          32767 < (if mx then xe - px else px) / MM_PER_PLOTTER_UNIT ∨
          (if my then ye - py else py) / MM_PER_PLOTTER_UNIT < -32768 ∨
          32767 < (if my then ye - py else py) / MM_PER_PLOTTER_UNIT
        then none
        else some ⟨roundHalfAway ((if mx then xe - px else px) / MM_PER_PLOTTER_UNIT),
                   roundHalfAway ((if my then ye - py else py) / MM_PER_PLOTTER_UNIT)⟩ := by
  simp only [PrintBed.place_point]
  by_cases hA : xs ≤ px ∧ px ≤ xe
  · by_cases hB : ys ≤ py ∧ py ≤ ye
    · rw [if_neg (not_not_intro hA), if_neg (not_not_intro hB)]
      rw [bedMmToHpgl_ifMirror, bedMmToHpgl_ifMirror]
      by_cases hC : (if mx then xe - px else px) / MM_PER_PLOTTER_UNIT < -32768 ∨
          32767 < (if mx then xe - px else px) / MM_PER_PLOTTER_UNIT
      · rw [if_pos hC, if_pos (Or.inr (Or.inr (Or.inr (Or.inr (hC.imp id Or.inl)))))]
      · rw [if_neg hC]
        by_cases hD : (if my then ye - py else py) / MM_PER_PLOTTER_UNIT < -32768 ∨
            32767 < (if my then ye - py else py) / MM_PER_PLOTTER_UNIT
        · rw [if_pos hD, if_pos (Or.inr (Or.inr (Or.inr (Or.inr (Or.inr (Or.inr hD))))))]
        · have hEn : ¬(px < xs ∨ xe < px ∨ py < ys ∨ ye < py ∨
              (if mx then xe - px else px) / MM_PER_PLOTTER_UNIT < -32768 ∨
              32767 < (if mx then xe - px else px) / MM_PER_PLOTTER_UNIT ∨
              (if my then ye - py else py) / MM_PER_PLOTTER_UNIT < -32768 ∨
              32767 < (if my then ye - py else py) / MM_PER_PLOTTER_UNIT) := by
            simp only [not_or, not_lt] at hC hD ⊢
            exact ⟨hA.1, hA.2, hB.1, hB.2, hC.1, hC.2, hD.1, hD.2⟩
          rw [if_neg hD, if_neg hEn]
    · have hE : px < xs ∨ xe < px ∨ py < ys ∨ ye < py ∨
          (if mx then xe - px else px) / MM_PER_PLOTTER_UNIT < -32768 ∨
          32767 < (if mx then xe - px else px) / MM_PER_PLOTTER_UNIT ∨
          (if my then ye - py else py) / MM_PER_PLOTTER_UNIT < -32768 ∨
          32767 < (if my then ye - py else py) / MM_PER_PLOTTER_UNIT := by
        rcases not_and_or.1 hB with h | h
        · exact Or.inr (Or.inr (Or.inl (not_le.1 h)))
        · exact Or.inr (Or.inr (Or.inr (Or.inl (not_le.1 h))))
      rw [if_neg (not_not_intro hA), if_pos (show ¬(ys ≤ py ∧ py ≤ ye) from hB), if_pos hE]
  · have hE : px < xs ∨ xe < px ∨ py < ys ∨ ye < py ∨
        (if mx then xe - px else px) / MM_PER_PLOTTER_UNIT < -32768 ∨
        32767 < (if mx then xe - px else px) / MM_PER_PLOTTER_UNIT ∨
        (if my then ye - py else py) / MM_PER_PLOTTER_UNIT < -32768 ∨
        32767 < (if my then ye - py else py) / MM_PER_PLOTTER_UNIT := by
      rcases not_and_or.1 hA with h | h
      · exact Or.inl (not_le.1 h)
      · exact Or.inr (Or.inl (not_le.1 h))
    rw [if_pos (show ¬(xs ≤ px ∧ px ≤ xe) from hA), if_pos hE]

/-- C7 counterexample: take the bed `x ∈ [-0.01, 819.17]` with `mirror_x`
set and the degenerate axis `y ∈ [0, 0]` (accepted verbatim by the
constructor), and the in-bed point `(-0.01, 0)`. The mirrored x value is
`819.18` mm, whose quotient `819.18 / 0.025 = 32767.2` *rounds* to `32767`,
inside `[-2¹⁵, 2¹⁵-1]` — so the claim's characterisation demands
`some (32767, 0)` — yet `place_point` bounds-checks the quotient *before*
rounding and returns `none`. -/
theorem C7_prerounding_counterexample :
    PrintBed.new (-1/100, 81917/100) true (0, 0) false =
        some ⟨-1/100, 81917/100, 0, 0, true, false⟩ ∧
      ((-1/100 : ℚ) ≤ -1/100 ∧ (-1/100 : ℚ) ≤ 81917/100 ∧ (0 : ℚ) ≤ 0) ∧
      roundHalfAway ((81917/100 - (-1/100)) / MM_PER_PLOTTER_UNIT) = 32767 ∧
      roundHalfAway ((0 : ℚ) / MM_PER_PLOTTER_UNIT) = 0 ∧
      (⟨-1/100, 81917/100, 0, 0, true, false⟩ : PrintBed).place_point ⟨-1/100, 0⟩ = none := by
  refine ⟨?_, by norm_num, ?_, ?_, ?_⟩
  · rw [PrintBed.new, if_pos (by norm_num)]
    norm_num [validateAxisValue, VALID_MM_RANGE_START, VALID_MM_RANGE_END, MM_PER_PLOTTER_UNIT]
  · norm_num [roundHalfAway, MM_PER_PLOTTER_UNIT]
  · norm_num [roundHalfAway, MM_PER_PLOTTER_UNIT]
  · norm_num [PrintBed.place_point, bedMmToHpgl, MM_PER_PLOTTER_UNIT]

/-- C7 (amended): for every bed and point, `place_point(p)` returns none iff
`p.x` is outside the bed's x axis, or `p.y` is outside the y axis, or for some
axis the **unrounded** quotient `v / 0.025` — with `v = axis.end − p_axis`
when that axis is mirrored and `v = p_axis` otherwise — lies outside
`[-2¹⁵, 2¹⁵-1]` (the range test precedes rounding); otherwise it returns
exactly `(round(v_x/0.025), round(v_y/0.025))`, rounding half away from zero.
In particular an in-bed point at `(x_end, y_end)` of a doubly mirrored,
ordered bed maps to `(0, 0)`. -/
theorem C7_place_point_characterisation (bed : PrintBed) (p : PointInMillimeters) :
    (bed.place_point p = none ↔
      (p.x < bed.x_start ∨ bed.x_end < p.x ∨ p.y < bed.y_start ∨ bed.y_end < p.y ∨
        (if bed.mirror_x then bed.x_end - p.x else p.x) / MM_PER_PLOTTER_UNIT < -32768 ∨
        32767 < (if bed.mirror_x then bed.x_end - p.x else p.x) / MM_PER_PLOTTER_UNIT ∨
        (if bed.mirror_y then bed.y_end - p.y else p.y) / MM_PER_PLOTTER_UNIT < -32768 ∨
        32767 < (if bed.mirror_y then bed.y_end - p.y else p.y) / MM_PER_PLOTTER_UNIT)) ∧
    (¬(p.x < bed.x_start ∨ bed.x_end < p.x ∨ p.y < bed.y_start ∨ bed.y_end < p.y ∨
        (if bed.mirror_x then bed.x_end - p.x else p.x) / MM_PER_PLOTTER_UNIT < -32768 ∨
        32767 < (if bed.mirror_x then bed.x_end - p.x else p.x) / MM_PER_PLOTTER_UNIT ∨
        (if bed.mirror_y then bed.y_end - p.y else p.y) / MM_PER_PLOTTER_UNIT < -32768 ∨
        32767 < (if bed.mirror_y then bed.y_end - p.y else p.y) / MM_PER_PLOTTER_UNIT) →
      bed.place_point p =
        some ⟨roundHalfAway ((if bed.mirror_x then bed.x_end - p.x else p.x) /
                MM_PER_PLOTTER_UNIT),
              roundHalfAway ((if bed.mirror_y then bed.y_end - p.y else p.y) /
                MM_PER_PLOTTER_UNIT)⟩) ∧
    (bed.mirror_x = true → bed.mirror_y = true → bed.x_start ≤ bed.x_end →
      bed.y_start ≤ bed.y_end →
      bed.place_point ⟨bed.x_end, bed.y_end⟩ = some ⟨0, 0⟩) := by
  obtain ⟨xs, xe, ys, ye, mx, my⟩ := bed
  obtain ⟨px, py⟩ := p
  refine ⟨?_, ?_, ?_⟩
  · rw [place_point_normal]
    split_ifs <;> simp_all
  · intro hc
    rw [place_point_normal, if_neg hc]
  · intro hmx hmy hxo hyo
    subst hmx hmy
    rw [place_point_normal]
    norm_num [not_lt.2 hxo, not_lt.2 hyo, roundHalfAway]

/-- C7 witness: the amended characterisation applied to the default bed and
the in-bed point (0,0), whose mirrored y value 463.2 mm is 18528 plotter
units. -/
theorem C7_place_point_characterisation_witness :
    BED_GCC_SPIRIT.place_point ⟨0, 0⟩ =
      some ⟨roundHalfAway ((if BED_GCC_SPIRIT.mirror_x then BED_GCC_SPIRIT.x_end - (0 : ℚ)
              else 0) / MM_PER_PLOTTER_UNIT),
            roundHalfAway ((if BED_GCC_SPIRIT.mirror_y then BED_GCC_SPIRIT.y_end - (0 : ℚ)
              else 0) / MM_PER_PLOTTER_UNIT)⟩ :=
  (C7_place_point_characterisation BED_GCC_SPIRIT ⟨0, 0⟩).2.1 (by
    rw [BED_GCC_SPIRIT_eq]
    norm_num [MM_PER_PLOTTER_UNIT])

/-! ## Structure of the plotter-unit conversion -/

theorem entryPush_not_mem {α : Type} {m : PathsByColour α} {c : PathColour} (p : List α)
    (h : c ∉ m.map Prod.fst) : entryPush m c p = m ++ [(c, [p])] := by
  induction m with
  | nil => rfl
  | cons e rest ih =>
    simp only [List.map_cons, List.mem_cons] at h
    push_neg at h
    obtain ⟨e1, e2⟩ := e
    simp only [entryPush, List.append_eq, List.cons_append]
    rw [if_neg (by exact Ne.symm h.1), ih h.2]

theorem entryPush_mem_mid {α : Type} {pre : PathsByColour α} {c : PathColour}
    (b : List (List α)) (post : PathsByColour α) (p : List α)
    (h : c ∉ pre.map Prod.fst) :
    entryPush (pre ++ (c, b) :: post) c p = pre ++ (c, b ++ [p]) :: post := by
  induction pre with
  | nil => simp [entryPush]
  | cons e rest ih =>
    simp only [List.map_cons, List.mem_cons] at h
    push_neg at h
    obtain ⟨e1, e2⟩ := e
    simp only [List.cons_append, entryPush, List.append_eq]
    rw [if_neg (by exact Ne.symm h.1), ih h.2]

theorem foldl_entryPush_mid {α γ : Type} (conv : γ → List α) (ps : List γ)
    {pre : PathsByColour α} {c : PathColour} (b : List (List α)) (post : PathsByColour α)
    (h : c ∉ pre.map Prod.fst) :
    ps.foldl (fun acc path => entryPush acc c (conv path)) (pre ++ (c, b) :: post) =
      pre ++ (c, b ++ ps.map conv) :: post := by
  induction ps generalizing b with
  | nil => simp
  | cons p ps ih =>
    rw [List.foldl_cons, entryPush_mem_mid b post (conv p) h, ih (b ++ [conv p])]
    simp

theorem foldl_entryPush_new {α γ : Type} (conv : γ → List α) (ps : List γ)
    {acc : PathsByColour α} {c : PathColour} (hne : ps ≠ [])
    (h : c ∉ acc.map Prod.fst) :
    ps.foldl (fun a path => entryPush a c (conv path)) acc =
      acc ++ [(c, ps.map conv)] := by
  cases ps with
  | nil => exact absurd rfl hne
  | cons p ps =>
    rw [List.foldl_cons, entryPush_not_mem (conv p) h]
    rw [show acc ++ [(c, [conv p])] = acc ++ (c, [conv p]) :: [] from rfl]
    rw [foldl_entryPush_mid conv ps [conv p] [] h]
    simp

/-- The inner-then-outer fold of `convert_points_to_plotter_units`, run from an
arbitrary accumulator whose keys are disjoint from the remaining input's keys. -/
theorem convert_foldl_eq {m : PathsByColour PointInMillimeters} :
    ∀ acc : PathsByColour ResolvedPoint,
      (acc.map Prod.fst ++ m.map Prod.fst).Nodup →
      m.foldl
        (fun acc e =>
          e.2.foldl (fun acc2 path => entryPush acc2 e.1 (points_in_mm_to_printer_units path))
            acc)
        acc =
      acc ++ (m.filterMap fun e =>
        if e.2 = [] then none else some (e.1, e.2.map points_in_mm_to_printer_units)) := by
  induction m with
  | nil => intro acc _; simp
  | cons e rest ih =>
    intro acc hnd
    rw [List.foldl_cons]
    by_cases he : e.2 = []
    · rw [he]
      simp only [List.foldl_nil]
      rw [ih acc (by
        refine List.Nodup.sublist ?_ hnd
        refine List.Sublist.append_left ?_ (acc.map Prod.fst)
        simp)]
      simp [List.filterMap_cons, he]
    · have hmem : e.1 ∉ acc.map Prod.fst := by
        intro hc
        have := (List.nodup_append.1 hnd).2.2
        exact this hc (by simp)
      rw [foldl_entryPush_new points_in_mm_to_printer_units e.2 he hmem]
      rw [ih (acc ++ [(e.1, e.2.map points_in_mm_to_printer_units)]) (by
        simpa using hnd)]
      simp [List.filterMap_cons, he]

/-- `convert_points_to_plotter_units` written as a per-entry map: for a map
with pairwise-distinct colours (always true of a `HashMap`), every entry with
a non-empty bucket maps to the same colour with every polyline converted
pointwise; entries with empty buckets disappear (the Rust loop only creates an
output entry when it pushes a polyline). -/
theorem convert_points_eq_filterMap (m : PathsByColour PointInMillimeters)
    (h : (m.map Prod.fst).Nodup) :
    convert_points_to_plotter_units m =
      m.filterMap fun e =>
        if e.2 = [] then none else some (e.1, e.2.map points_in_mm_to_printer_units) := by
  rw [convert_points_to_plotter_units, convert_foldl_eq [] (by simpa using h)]
  simp

theorem getColour_cons_self {α : Type} (c : PathColour) (b : List (List α))
    (rest : PathsByColour α) : getColour ((c, b) :: rest) c = some b := by
  simp [getColour]

theorem getColour_cons_ne {α : Type} {c' c : PathColour} (b : List (List α))
    (rest : PathsByColour α) (hc : c' ≠ c) :
    getColour ((c', b) :: rest) c = getColour rest c := by
  simp only [getColour, List.find?_cons]
  rw [show (decide ((c', b).1 = c)) = false by simpa using hc]

theorem getColour_not_mem {α : Type} {m : PathsByColour α} {c : PathColour}
    (h : c ∉ m.map Prod.fst) : getColour m c = none := by
  induction m with
  | nil => rfl
  | cons e rest ih =>
    simp only [List.map_cons, List.mem_cons] at h
    push_neg at h
    obtain ⟨e1, e2⟩ := e
    rw [getColour_cons_ne e2 rest (by exact Ne.symm h.1)]
    exact ih h.2

/-- Keys of the converted map come from keys of the input map. -/
theorem convertFilterMap_keys_subset (rest : PathsByColour PointInMillimeters) :
    (rest.filterMap fun e =>
        if e.2 = [] then none
        else some (e.1, e.2.map points_in_mm_to_printer_units)).map Prod.fst ⊆
      rest.map Prod.fst := by
  intro x hx
  simp only [List.map_filterMap, List.mem_filterMap] at hx
  obtain ⟨a, ha, hax⟩ := hx
  by_cases hae : a.2 = [] <;> simp [hae] at hax
  rw [← hax]
  exact List.mem_map_of_mem Prod.fst ha

/-- Bucket-level reading of `convert_points_eq_filterMap`. -/
theorem getColour_convert (m : PathsByColour PointInMillimeters)
    (h : (m.map Prod.fst).Nodup) (c : PathColour) :
    getColour (convert_points_to_plotter_units m) c =
      (getColour m c).bind fun ps =>
        if ps = [] then none else some (ps.map points_in_mm_to_printer_units) := by
  rw [convert_points_eq_filterMap m h]
  induction m with
  | nil => rfl
  | cons e rest ih =>
    simp only [List.map_cons, List.nodup_cons] at h
    obtain ⟨e1, e2⟩ := e
    by_cases hc : e1 = c
    · subst hc
      by_cases he : e2 = []
      · rw [List.filterMap_cons_none (by simp [he])]
        rw [getColour_not_mem (fun hmem => h.1 (convertFilterMap_keys_subset rest hmem))]
        rw [getColour_cons_self]
        simp [he]
      · rw [List.filterMap_cons_some
          (b := (e1, e2.map points_in_mm_to_printer_units)) (by simp [he])]
        rw [getColour_cons_self, getColour_cons_self]
        simp [he]
    · by_cases he : e2 = []
      · rw [List.filterMap_cons_none (by simp [he])]
        rw [getColour_cons_ne e2 rest hc]
        exact ih h.2
      · rw [List.filterMap_cons_some
          (b := (e1, e2.map points_in_mm_to_printer_units)) (by simp [he])]
        rw [getColour_cons_ne _ _ hc, getColour_cons_ne e2 rest hc]
        exact ih h.2

/-! ## Claim C2 -/

theorem mm_to_hpgl_units_neg1000_x : mm_to_hpgl_units (-1000) true = -32768 := by
  norm_num [mm_to_hpgl_units, satI16, roundHalfAway, MM_PER_PLOTTER_UNIT]

theorem mm_to_hpgl_units_5_x : mm_to_hpgl_units 5 true = 200 := by
  norm_num [mm_to_hpgl_units, satI16, roundHalfAway, MM_PER_PLOTTER_UNIT]

theorem mm_to_hpgl_units_1000_x : mm_to_hpgl_units 1000 true = 32767 := by
  norm_num [mm_to_hpgl_units, satI16, roundHalfAway, MM_PER_PLOTTER_UNIT]

theorem mm_to_hpgl_units_5_y : mm_to_hpgl_units 5 false = 18328 := by
  norm_num [mm_to_hpgl_units, satI16, roundHalfAway, MM_PER_PLOTTER_UNIT, BED_HEIGHT_MM,
    BED_Y_AXIS_MAXIMUM_MM]

/-- C2 counterexample: the point `(-1000, 0)` mm fails the default bed's
bounds check (`place_point` rejects it), yet the cutting pipeline's conversion
does not drop it and does not split the polyline: the three-point polyline
containing two out-of-bed points converts to a single three-point polyline
whose out-of-bed coordinates are saturated (`-32768` and `32767`). -/
theorem C2_out_of_bed_point_kept_counterexample :
    BED_GCC_SPIRIT.place_point ⟨-1000, 0⟩ = none ∧
      convert_points_to_plotter_units [((0, 0, 0), [[⟨-1000, 0⟩, ⟨5, 5⟩, ⟨1000, 0⟩]])] =
        [((0, 0, 0), [[⟨-32768, 18528⟩, ⟨200, 18328⟩, ⟨32767, 18528⟩]])] := by
  constructor
  · rw [BED_GCC_SPIRIT_eq, place_point_normal, if_pos (Or.inl (by norm_num))]
  · simp [convert_points_to_plotter_units, entryPush, points_in_mm_to_printer_units,
      mm_to_hpgl_units_neg1000_x, mm_to_hpgl_units_5_x, mm_to_hpgl_units_1000_x,
      mm_to_hpgl_units_0_y, mm_to_hpgl_units_5_y]

/-- C2 (amended): the plotter-unit conversion step never invokes the bed's
bounds-checked placement: every point is converted by the total saturating
`mm_to_hpgl_units`, so no point is ever dropped and no polyline is ever
split — each input polyline maps pointwise, in order, to exactly one output
polyline of the same length (colour buckets are kept per entry; an entry whose
bucket holds no polylines produces no output entry). -/
theorem C2_conversion_never_drops_points (m : PathsByColour PointInMillimeters)
    (h : (m.map Prod.fst).Nodup) :
    convert_points_to_plotter_units m =
        (m.filterMap fun e =>
          if e.2 = [] then none
          else some (e.1, e.2.map points_in_mm_to_printer_units)) ∧
      (∀ pts : PathInMM, (points_in_mm_to_printer_units pts).length = pts.length) ∧
      (∀ (pts : PathInMM) (i : ℕ),
        (points_in_mm_to_printer_units pts)[i]? =
          pts[i]?.map fun point =>
            (⟨mm_to_hpgl_units point.x true, mm_to_hpgl_units point.y false⟩ : ResolvedPoint)) :=
  ⟨convert_points_eq_filterMap m h,
    fun pts => by simp [points_in_mm_to_printer_units],
    fun pts i => by simp [points_in_mm_to_printer_units]⟩

/-- C2 witness: the amended conversion statement applied to the single-line
design of scenario 2. -/
theorem C2_conversion_never_drops_points_witness :
    convert_points_to_plotter_units scenarioLineMM =
      scenarioLineMM.filterMap fun e =>
        if e.2 = [] then none else some (e.1, e.2.map points_in_mm_to_printer_units) :=
  (C2_conversion_never_drops_points scenarioLineMM (by decide)).1

/-! ## Claim C10 -/

theorem satI16_spec (z : ℤ) :
    (-32768 ≤ satI16 z ∧ satI16 z ≤ 32767) ∧
      (z < -32768 → satI16 z = -32768) ∧ (32767 < z → satI16 z = 32767) ∧
      (-32768 ≤ z → z ≤ 32767 → satI16 z = z) := by
  simp only [satI16]
  refine ⟨⟨le_max_left _ _, max_le (by norm_num) (min_le_left _ _)⟩, ?_, ?_, ?_⟩
  · intro hz
    rw [min_eq_right (by linarith), max_eq_left (by linarith)]
  · intro hz
    rw [min_eq_left (by linarith), max_eq_right (by linarith)]
  · intro h1 h2
    rw [min_eq_right h2, max_eq_right h1]

/-- C10: the mm → plotter-unit conversion of the cutting pipeline is total
and saturating — for every finite coordinate `mm_to_hpgl_units` returns a
value in `[-32768, 32767]`, equal to the rounded quotient when that is in
range and clamped to the nearer bound otherwise — and
`convert_points_to_plotter_units` preserves, for every colour, the bucket's
polylines (same count, same per-polyline point count, same point order,
converted pointwise): no point is dropped and no polyline is split. -/
theorem C10_conversion_total_and_structure_preserving :
    (∀ (mm : ℚ) (ax : Bool),
      -32768 ≤ mm_to_hpgl_units mm ax ∧ mm_to_hpgl_units mm ax ≤ 32767) ∧
    (∀ (mm : ℚ) (ax : Bool),
      (roundHalfAway ((if ax then mm else BED_HEIGHT_MM - mm) / MM_PER_PLOTTER_UNIT) <
          -32768 → mm_to_hpgl_units mm ax = -32768) ∧
      (32767 <
          roundHalfAway ((if ax then mm else BED_HEIGHT_MM - mm) / MM_PER_PLOTTER_UNIT) →
        mm_to_hpgl_units mm ax = 32767) ∧
      (-32768 ≤
          roundHalfAway ((if ax then mm else BED_HEIGHT_MM - mm) / MM_PER_PLOTTER_UNIT) →
        roundHalfAway ((if ax then mm else BED_HEIGHT_MM - mm) / MM_PER_PLOTTER_UNIT) ≤
          32767 →
        mm_to_hpgl_units mm ax =
          roundHalfAway ((if ax then mm else BED_HEIGHT_MM - mm) / MM_PER_PLOTTER_UNIT))) ∧
    (∀ m : PathsByColour PointInMillimeters, (m.map Prod.fst).Nodup → ∀ c : PathColour,
      (getColour (convert_points_to_plotter_units m) c).getD [] =
        ((getColour m c).getD []).map points_in_mm_to_printer_units) ∧
    (∀ pts : PathInMM, (points_in_mm_to_printer_units pts).length = pts.length ∧
      ∀ i : ℕ, (points_in_mm_to_printer_units pts)[i]? =
        pts[i]?.map fun point =>
          (⟨mm_to_hpgl_units point.x true, mm_to_hpgl_units point.y false⟩ : ResolvedPoint)) := by
  refine ⟨?_, ?_, ?_, ?_⟩
  · intro mm ax
    exact (satI16_spec _).1
  · intro mm ax
    refine ⟨fun hz => ?_, fun hz => ?_, fun h1 h2 => ?_⟩
    · exact (satI16_spec _).2.1 (by cases ax <;> simpa [mm_to_hpgl_units] using hz)
    · exact (satI16_spec _).2.2.1 (by cases ax <;> simpa [mm_to_hpgl_units] using hz)
    · cases ax <;>
        · simp only [mm_to_hpgl_units] at *
          exact (satI16_spec _).2.2.2 (by simpa using h1) (by simpa using h2)
  · intro m h c
    rw [getColour_convert m h c]
    cases hg : getColour m c with
    | none => rfl
    | some ps =>
      by_cases hps : ps = [] <;> simp [hps]
  · intro pts
    exact ⟨by simp [points_in_mm_to_printer_units],
      fun i => by simp [points_in_mm_to_printer_units]⟩

/-- C10 witness: bucket preservation applied to a concrete one-entry map. -/
theorem C10_conversion_witness :
    (getColour (convert_points_to_plotter_units [((0, 0, 0), [[⟨0, 0⟩]])]) (0, 0, 0)).getD [] =
      ((getColour [((0, 0, 0), [[(⟨0, 0⟩ : PointInMillimeters)]])] (0, 0, 0)).getD []).map
        points_in_mm_to_printer_units :=
  C10_conversion_total_and_structure_preserving.2.2.1 [((0, 0, 0), [[⟨0, 0⟩]])] (by decide)
    (0, 0, 0)

/-! ## Claim C5 -/

/-- The disabled zero-power placeholder pass used by `planchette` when padding
a short tool program: `ToolPass::new("skipped", 0, 0, 0, 0, 1000, false)`. -/
def skippedToolPass : ToolPass := ToolPass.new "skipped".data 0 0 0 0 1000 false

/-- `planchette`'s tool-pass normalisation (`send_file_to_device` in
`planchette/src/main.rs`): the emitter requires exactly 16 passes, so on the
device path a list longer than 16 is truncated to 16 and a shorter one is
resized to 16 with `skippedToolPass` placeholders before `cut_file` (and hence
`wrap_hpgl_in_pcl`) is invoked. -/
def planchette_normalize_tool_passes (tool_passes : List ToolPass) : List ToolPass :=
  if 16 < tool_passes.length then tool_passes.take 16
  else if tool_passes.length < 16 then
    tool_passes ++ List.replicate (16 - tool_passes.length) skippedToolPass
  else tool_passes

theorem planchette_normalize_length (passes : List ToolPass) :
    (planchette_normalize_tool_passes passes).length = 16 := by
  rw [planchette_normalize_tool_passes]
  split_ifs with h1 h2
  · simp only [List.length_take]
    omega
  · simp only [List.length_append, List.length_replicate]
    omega
  · omega

theorem planchette_normalize_mem {passes : List ToolPass} {p : ToolPass}
    (hmem : p ∈ planchette_normalize_tool_passes passes) :
    p ∈ passes ∨ p = skippedToolPass := by
  rw [planchette_normalize_tool_passes] at hmem
  split_ifs at hmem with h1 h2
  · exact Or.inl (List.take_subset 16 passes hmem)
  · rcases List.mem_append.1 hmem with h | h
    · exact Or.inl h
    · exact Or.inr (List.eq_of_mem_replicate h)
  · exact Or.inl hmem

theorem filter_enabled_replicate_skipped (n : ℕ) :
    (List.replicate n skippedToolPass).filter (fun p => p.enabled) = [] := by
  induction n with
  | zero => rfl
  | succ n ih => simp [List.replicate_succ, List.filter_cons, skippedToolPass, ToolPass.new, ih]

/-- C5: every tool-pass list reaching the PCL envelope on the device path is
first normalised by `planchette` — lists shorter than 16 are padded with
disabled zero-power placeholders, longer lists are truncated — and for the
resulting 16-entry program the pen table has an `R` section body of exactly
16 `'1'` characters, `I`, `V` and `P` section bodies of exactly 64 ASCII
digits each (speed and power zero-padded to width 4, `ToolPass` keeping both
≤ 9999), and a `D` section body of exactly 16 bytes, each `0x02` or `0x00`,
where the number of `0x02` bytes equals the number of enabled passes in the
emitted program — which, whenever the submitted list was not truncated,
equals the number of enabled passes submitted (the placeholders are
disabled). -/
theorem C5_pen_table_16_wide (passes : List ToolPass)
    (hp : ∀ p ∈ passes, p.power ≤ 9999) (hs : ∀ p ∈ passes, p.speed ≤ 9999) :
    pcl_pen_table (planchette_normalize_tool_passes passes) =
      (ESC :: "!v".data ++ natDecimal 16 ++ "R".data) ++
        penTableRBody (planchette_normalize_tool_passes passes) ++
      (ESC :: "!v".data ++ natDecimal 64 ++ "I".data) ++
        penTableIBody (planchette_normalize_tool_passes passes) ++
      (ESC :: "!v".data ++ natDecimal 64 ++ "V".data) ++
        penTableVBody (planchette_normalize_tool_passes passes) ++
      (ESC :: "!v".data ++ natDecimal 64 ++ "P".data) ++
        penTablePBody (planchette_normalize_tool_passes passes) ++
      (ESC :: "!v".data ++ natDecimal 16 ++ "D".data) ++
        penTableDBody (planchette_normalize_tool_passes passes) ∧
    (penTableRBody (planchette_normalize_tool_passes passes)).count '1' = 16 ∧
    (penTableIBody (planchette_normalize_tool_passes passes)).length = 64 ∧
    (∀ c ∈ penTableIBody (planchette_normalize_tool_passes passes), c.isDigit = true) ∧
    (penTableVBody (planchette_normalize_tool_passes passes)).length = 64 ∧
    (∀ c ∈ penTableVBody (planchette_normalize_tool_passes passes), c.isDigit = true) ∧
    (penTablePBody (planchette_normalize_tool_passes passes)).length = 64 ∧
    (∀ c ∈ penTablePBody (planchette_normalize_tool_passes passes), c.isDigit = true) ∧
    (penTableDBody (planchette_normalize_tool_passes passes)).length = 16 ∧
    (∀ c ∈ penTableDBody (planchette_normalize_tool_passes passes),
      c = SOX ∨ c = NULchar) ∧
    (penTableDBody (planchette_normalize_tool_passes passes)).count SOX =
      ((planchette_normalize_tool_passes passes).filter fun p => p.enabled).length ∧
    (passes.length ≤ 16 →
      ((planchette_normalize_tool_passes passes).filter fun p => p.enabled).length =
        (passes.filter fun p => p.enabled).length) := by
  have hlen := planchette_normalize_length passes
  have hp' : ∀ p ∈ planchette_normalize_tool_passes passes, p.power ≤ 9999 := by
    intro p hpm
    rcases planchette_normalize_mem hpm with h | h
    · exact hp p h
    · rw [h]
      simp [skippedToolPass, ToolPass.new]
  have hs' : ∀ p ∈ planchette_normalize_tool_passes passes, p.speed ≤ 9999 := by
    intro p hpm
    rcases planchette_normalize_mem hpm with h | h
    · exact hs p h
    · rw [h]
      simp [skippedToolPass, ToolPass.new]
  refine ⟨?_, ?_, ?_, penTableIBody_isDigit _, ?_, penTableVBody_isDigit _, ?_,
    penTablePBody_isDigit _, ?_, penTableDBody_mem _, penTableDBody_count _, ?_⟩
  · simp [pcl_pen_table, hlen]
  · rw [penTableRBody_count, hlen]
  · rw [penTableIBody_length, hlen]
  · rw [penTableVBody_length _ hs', hlen]
  · rw [penTablePBody_length _ hp', hlen]
  · rw [penTableDBody_length, hlen]
  · intro hle
    rw [planchette_normalize_tool_passes]
    split_ifs with h1 h2
    · omega
    · rw [List.filter_append, filter_enabled_replicate_skipped]
      simp
    · rfl

/-- C5 witness: the pen-table widths applied to the empty submission, which
planchette pads to 16 disabled placeholders. -/
theorem C5_pen_table_16_wide_witness :
    (penTableRBody (planchette_normalize_tool_passes [])).count '1' = 16 ∧
      (penTableDBody (planchette_normalize_tool_passes [])).count SOX =
        ((planchette_normalize_tool_passes []).filter fun p => p.enabled).length := by
  have h := C5_pen_table_16_wide [] (by simp) (by simp)
  exact ⟨h.2.1, h.2.2.2.2.2.2.2.2.2.2.1⟩

/-! ## Claim C4 -/

/-- C4: `wrap_hpgl_in_pcl` returns exactly the separator-free concatenation of
the 17 envelope items in the order given by the claim; consequently the output
starts with `PJL UEL` followed immediately by `ESC E` (PCL reset) and ends
with `ESC E` followed by `PJL UEL`, making `ESC E` the second and
second-to-last control sequence. -/
theorem C4_wrap_hpgl_in_pcl_layout (hpgl filename : Str) (passes : List ToolPass) :
    wrap_hpgl_in_pcl hpgl filename passes =
      pjl_universal_exit_language ++ pcl_reset ++ pcl_filename filename ++
        pcl_pen_table passes ++ pcl_raster_resolution 508 ++ pcl_unit_of_measure 508 ++
        (ESC :: "!r0N".data) ++ pcl_enter_pcl_mode ++
        (ESC :: "!r1000I".data ++ ESC :: "!r1000K".data ++ ESC :: "!r500P".data) ++
        pcl_raster_resolution 508 ++ pcl_unit_of_measure 508 ++
        (ESC :: "!m0S".data ++ ESC :: "!s1S".data) ++ pcl_enter_hpgl_mode ++
        hpgl ++ pcl_enter_pcl_mode ++ pcl_reset ++ pjl_universal_exit_language ∧
    (∃ mid, wrap_hpgl_in_pcl hpgl filename passes =
      (pjl_universal_exit_language ++ pcl_reset) ++ mid ++
        (pcl_reset ++ pjl_universal_exit_language)) := by
  constructor
  · simp [wrap_hpgl_in_pcl]
  · refine ⟨pcl_filename filename ++
      pcl_pen_table passes ++ pcl_raster_resolution 508 ++ pcl_unit_of_measure 508 ++
      (ESC :: "!r0N".data) ++ pcl_enter_pcl_mode ++
      (ESC :: "!r1000I".data ++ ESC :: "!r1000K".data ++ ESC :: "!r500P".data) ++
      pcl_raster_resolution 508 ++ pcl_unit_of_measure 508 ++
      (ESC :: "!m0S".data ++ ESC :: "!s1S".data) ++ pcl_enter_hpgl_mode ++
      hpgl ++ pcl_enter_pcl_mode, ?_⟩
    simp [wrap_hpgl_in_pcl]

/-! ## Claim C9 -/

theorem mailboxAfter_append {R : Type} (es fs : List (PreviewEvent R)) :
    mailboxAfter (es ++ fs) = fs.foldl mailboxStep (mailboxAfter es) := by
  simp [mailboxAfter, List.foldl_append]

theorem renderedFrom_append {R : Type} (es fs : List (PreviewEvent R)) :
    ∀ s : Option R,
      renderedFrom s (es ++ fs) = renderedFrom s es ++ renderedFrom (es.foldl mailboxStep s) fs := by
  induction es with
  | nil => intro s; simp [renderedFrom]
  | cons e rest ih =>
    intro s
    cases e with
    | submit r => simpa [renderedFrom, mailboxStep] using ih (some r)
    | take => simpa [renderedFrom, mailboxStep] using ih none

theorem renderedFrom_no_take {R : Type} (es : List (PreviewEvent R))
    (h : PreviewEvent.take ∉ es) : ∀ s : Option R, renderedFrom s es = [] := by
  induction es with
  | nil => intro s; rfl
  | cons e rest ih =>
    intro s
    cases e with
    | submit r =>
      simp only [List.mem_cons] at h
      push_neg at h
      exact ih h.2 (some r)
    | take => simp at h

theorem renderedFrom_mem {R : Type} (es : List (PreviewEvent R)) :
    ∀ (s : Option R) (r : R), r ∈ renderedFrom s es → r ∈ s.toList ∨ r ∈ submitsOf es := by
  induction es with
  | nil => intro s r hr; simp [renderedFrom] at hr
  | cons e rest ih =>
    intro s r hr
    cases e with
    | submit r' =>
      rcases ih (some r') r (by simpa [renderedFrom] using hr) with h | h
      · simp only [Option.toList_some, List.mem_singleton] at h
        exact Or.inr (by simp [submitsOf, h])
      · exact Or.inr (by simp [submitsOf]; right; simpa [submitsOf] using h)
    | take =>
      simp only [renderedFrom, List.mem_append] at hr
      rcases hr with h | h
      · exact Or.inl h
      · rcases ih none r h with h' | h'
        · simp at h'
        · exact Or.inr (by simpa [submitsOf] using h')

theorem foldl_mailbox_lastSubmit {R : Type} (es : List (PreviewEvent R)) :
    ∀ (s a : Option R) (r : R), (∀ x, s = some x → a = some x) →
      es.foldl mailboxStep s = some r →
      es.foldl (fun acc e => match e with | .submit r' => some r' | .take => acc) a = some r := by
  induction es with
  | nil =>
    intro s a r hsa hs
    simpa using hsa r hs
  | cons e rest ih =>
    intro s a r hsa hs
    cases e with
    | submit r' =>
      exact ih (some r') (some r') r (fun x hx => hx) (by simpa [mailboxStep] using hs)
    | take =>
      exact ih none a r (fun x hx => by simp at hx) (by simpa [mailboxStep] using hs)

/-- C9: the preview mailbox is a single slot under a mutex, so an execution is
a sequence of atomic submits and takes. (i) A producer's submission replaces
whatever is pending: after any trace followed by a submit, the slot holds
exactly that request. (ii) A take returns the pending request (rendering it)
and empties the slot. (iii) Last-writer-wins: whatever a take finds in the
slot is the most recent request submitted in the whole preceding trace.
(iv) A replaced request is never rendered: if a request `r`, submitted once,
is overwritten by a later submit with no intervening take, no take in the
whole trace ever renders `r`. -/
theorem C9_mailbox_coalescing :
    (∀ (es : List (PreviewEvent ℕ)) (r : ℕ),
      mailboxAfter (es ++ [PreviewEvent.submit r]) = some r) ∧
    (∀ es : List (PreviewEvent ℕ),
      rendered (es ++ [PreviewEvent.take]) = rendered es ++ (mailboxAfter es).toList ∧
        mailboxAfter (es ++ [PreviewEvent.take]) = none) ∧
    (∀ (es : List (PreviewEvent ℕ)) (r : ℕ),
      mailboxAfter es = some r → lastSubmit es = some r) ∧
    (∀ (pre mid post : List (PreviewEvent ℕ)) (r r' : ℕ),
      PreviewEvent.take ∉ mid → r ∉ submitsOf pre → r ≠ r' → r ∉ submitsOf post →
      r ∉ rendered (pre ++ PreviewEvent.submit r :: (mid ++ PreviewEvent.submit r' :: post))) := by
  refine ⟨?_, ?_, ?_, ?_⟩
  · intro es r
    simp [mailboxAfter_append, mailboxStep]
  · intro es
    constructor
    · rw [rendered, rendered, renderedFrom_append]
      simp [renderedFrom, mailboxAfter]
    · simp [mailboxAfter_append, mailboxStep]
  · intro es r h
    exact foldl_mailbox_lastSubmit es none none r (fun x hx => by simp at hx) h
  · intro pre mid post r r' htake hpre hne hpost hmem
    rw [rendered, renderedFrom_append] at hmem
    rcases List.mem_append.1 hmem with h | h
    · rcases renderedFrom_mem pre none r h with h' | h'
      · simp at h'
      · exact hpre h'
    · rw [show (PreviewEvent.submit r :: (mid ++ PreviewEvent.submit r' :: post)) =
          [PreviewEvent.submit r] ++ (mid ++ ([PreviewEvent.submit r'] ++ post)) from rfl,
        renderedFrom_append, renderedFrom_append, renderedFrom_append] at h
      rcases List.mem_append.1 h with h2 | h2
      · simp [renderedFrom] at h2
      · rcases List.mem_append.1 h2 with h3 | h3
        · rw [renderedFrom_no_take mid htake] at h3
          simp at h3
        · rcases List.mem_append.1 h3 with h4 | h4
          · simp [renderedFrom] at h4
          · rcases renderedFrom_mem post _ r h4 with h' | h'
            · have h'' : r ∈ (some r' : Option ℕ).toList := h'
              simp only [Option.toList_some, List.mem_singleton] at h''
              exact hne h''
            · exact hpost h'

/-- C9 witness: in the trace submit 1, submit 2, take — the second submission
replaces the first, the take renders request 2, and the replaced request 1 is
never rendered. -/
theorem C9_mailbox_coalescing_witness :
    mailboxAfter [PreviewEvent.submit (1 : ℕ), PreviewEvent.submit 2] = some 2 ∧
      (1 : ℕ) ∉ rendered [PreviewEvent.submit (1 : ℕ), PreviewEvent.submit 2,
        PreviewEvent.take] :=
  ⟨C9_mailbox_coalescing.1 [PreviewEvent.submit 1] 2,
    C9_mailbox_coalescing.2.2.2 [] [] [PreviewEvent.take] 1 2 (by decide) (by decide)
      (by decide) (by decide)⟩
